import Mathlib

/-!
# Verification of the rust-regexps matching engine

A shallow embedding of `src/matcher/mod.rs` (the backtracking `Matcher`) and
`src/scanner/mod.rs` (the tokenizer).  Rust's mutable `Matcher` struct becomes
an explicit state record (`MState`); the recursive match procedures become
fuel-indexed functions (`none` = the Rust code has not finished within the
given fuel; the Rust program's behaviour is the value for every sufficiently
large fuel, and a result of `none` for all fuels models divergence).

The expression tree type (`ParsedRegexp` from the external `crate::parser`,
absent from the sources) is modelled from the spec, §3: tag ∈ {Empty,
Character(optional char, quantifier), Group(quantifier), Alternation,
Concatenation}.  Concrete pattern strings used by claims are translated to
trees by hand following the spec's grammar (postfix quantifiers bind to the
preceding atom; alternation is the weakest; concatenation in between).
-/

namespace RustRegexps

/-- Modelled from the spec: quantifier ∈ {None, ZeroOrOne, ZeroOrMore, OneOrMore}
(`Quantifier` of the external `crate::parser::syntax_tree`). -/
inductive Quantifier where
  | none
  | zeroOrOne
  | zeroOrMore
  | oneOrMore
deriving DecidableEq, Repr

/-- Modelled from the spec: the expression tree node (`ParsedRegexp` /
`ExpressionType` of the external `crate::parser::syntax_tree`).  A
`CharacterExpression` with `value = none` is the wildcard dot. -/
inductive Regexp where
  | empty
  | char (value : Option Char) (q : Quantifier)
  | group (q : Quantifier) (child : Regexp)
  | alternation (children : List Regexp)
  | concatenation (children : List Regexp)
deriving Repr

-- Match operation outcome: `pub type Match = std::ops::Range<usize>`.
-- `stop` is Rust's `end` (a reserved word in Lean).
structure RMatch where
  start : Nat
  stop : Nat
deriving DecidableEq, Repr

/-- `Range::is_empty`: `!(start < end)`. -/
def RMatch.isEmpty (m : RMatch) : Bool :=
  decide (¬ m.start < m.stop)

-- `struct ExpressionBacktrackInfo`
structure ExpressionBacktrackInfo where
  index_sequence : List Nat
  last_match_start : Nat
  last_match_end : Nat
  backtracked_to_last_match_start : Bool
deriving DecidableEq, Repr

-- `enum MatchPhase`
inductive MatchPhase where
  | Normal
  | TrailingEmptyString
  | Finished
deriving DecidableEq, Repr

/-- The mutable state of `struct Matcher` (all fields except the immutable
pattern tree, which is passed separately to each function). -/
structure MState where
  target : List Char
  pos : Nat
  next_match_phase : MatchPhase
  pattern_index_sequence : List Nat
  backtrack_table : List ExpressionBacktrackInfo
  match_bound : Nat
  match_cache : List RMatch
  matches_substring_start : Option Nat
  matches_substring_end : Nat
deriving DecidableEq, Repr

namespace MState

/-- `Matcher::current`: `min(self.pos, self.target.len())`. -/
def current (st : MState) : Nat := min st.pos st.target.length

/-- `Matcher::has_next`: `self.pos < self.target.len()`. -/
def has_next (st : MState) : Bool := decide (st.pos < st.target.length)

/-- `Matcher::set_position`. -/
def set_position (st : MState) (p : Nat) : MState := { st with pos := p }

/-- `Matcher::advance`: `self.pos += 1`. -/
def advance (st : MState) : MState := { st with pos := st.pos + 1 }

/-- `Matcher::dive`: push 0 onto `pattern_index_sequence`. -/
def dive (st : MState) : MState :=
  { st with pattern_index_sequence := st.pattern_index_sequence ++ [0] }

/-- `Matcher::bubble_up`: pop the last element of `pattern_index_sequence`. -/
def bubble_up (st : MState) : MState :=
  { st with pattern_index_sequence := st.pattern_index_sequence.dropLast }

end MState

/-- Increment the last element of a list (`*self.pattern_index_sequence.last_mut().unwrap() += 1`;
the sequence is never empty at the call sites, an empty list is left unchanged). -/
def bumpLast : List Nat → List Nat
  | [] => []
  | [a] => [a + 1]
  | a :: rest => a :: bumpLast rest

/-- Overwrite the last element of a list
(`*self.pattern_index_sequence.last_mut().unwrap() = child_index`). -/
def setLast (n : Nat) : List Nat → List Nat
  | [] => []
  | [_] => [n]
  | a :: rest => a :: setLast n rest

/-- `Matcher::appoint_next_child`. -/
def MState.appoint_next_child (st : MState) : MState :=
  { st with pattern_index_sequence := bumpLast st.pattern_index_sequence }

/-- `Vec<usize>::cmp`: lexicographic comparison, shorter prefix first. -/
def seqCmp : List Nat → List Nat → Ordering
  | [], [] => .eq
  | [], _ :: _ => .lt
  | _ :: _, [] => .gt
  | a :: as_, b :: bs =>
    if a < b then .lt else if b < a then .gt else seqCmp as_ bs

/-- Result of `slice::binary_search_by`: `Ok(index)` or `Err(insertion_index)`. -/
inductive SearchResult where
  | found (i : Nat)
  | notFound (insertion : Nat)
deriving DecidableEq, Repr

/-- Placeholder entry for out-of-range indexing (unreachable at the call
sites: stored table positions always point into the ever-growing table). -/
def dummyEntry : ExpressionBacktrackInfo :=
  { index_sequence := [], last_match_start := 0, last_match_end := 0,
    backtracked_to_last_match_start := true }

/-- The binary-search loop of Rust `slice::binary_search_by` with the
comparator `|e| e.index_sequence.cmp(&key)`.  The extra first argument is a
step counter making the recursion structural (the kernel cannot evaluate
well-founded definitions): the interval shrinks strictly on every iteration,
so `table.length + 1` steps always finish and the 0-step fallback is
unreachable from `tableSearch`. -/
def binSearchAux (table : List ExpressionBacktrackInfo) (key : List Nat) :
    Nat → Nat → Nat → SearchResult
  | 0, left, _ => .notFound left
  | steps + 1, left, right =>
    if left < right then
      let mid := left + (right - left) / 2
      match seqCmp (table.getD mid dummyEntry).index_sequence key with
      | .lt => binSearchAux table key steps (mid + 1) right
      | .gt => binSearchAux table key steps left mid
      | .eq => .found mid
    else .notFound left

/-- `self.backtrack_table.binary_search_by(|e| e.index_sequence.cmp(&key))`. -/
def tableSearch (table : List ExpressionBacktrackInfo) (key : List Nat) : SearchResult :=
  binSearchAux table key (table.length + 1) 0 table.length

/-- Insert at a given index (`Vec::insert`). -/
def insertAt {α : Type} (i : Nat) (a : α) : List α → List α
  | [] => [a]
  | x :: xs =>
    match i with
    | 0 => a :: x :: xs
    | j + 1 => x :: insertAt j a xs

/-- The loop of Rust `slice::partition_point` (a binary search for the first
element on which the predicate is false), with a step counter as in
`binSearchAux` (`l.length + 1` steps always finish). -/
def partitionPointAux (pred : RMatch → Bool) (l : List RMatch) :
    Nat → Nat → Nat → Nat
  | 0, left, _ => left
  | steps + 1, left, right =>
    if left < right then
      let mid := left + (right - left) / 2
      if pred (l.getD mid { start := 0, stop := 0 }) then
        partitionPointAux pred l steps (mid + 1) right
      else
        partitionPointAux pred l steps left mid
    else left

/-- `slice::partition_point`. -/
def partitionPoint (pred : RMatch → Bool) (l : List RMatch) : Nat :=
  partitionPointAux pred l (l.length + 1) 0 l.length

/-- `Matcher::supports_backtracking` (on `Sum.inr`, the `children.iter().any`
of the alternation/concatenation arm).  Structural recursion on a fuel
counter (a mutual or nested structural recursion on `Regexp` would be
compiled by well-founded recursion, which the kernel cannot evaluate);
`none` means the fuel was smaller than the tree depth and is propagated by
`run` as overall fuel exhaustion, so every completed run used faithful
values.  The group arm short-circuits exactly like the Rust `||`. -/
def supports_fuel : Nat → Regexp ⊕ List Regexp → Option Bool
  | 0, _ => none
  | fuel + 1, x =>
    match x with
    | .inl .empty => some false
    | .inl (.char _ q) => some (decide (q ≠ Quantifier.none))
    | .inl (.group q child) =>
      if q ≠ Quantifier.none then some true else supports_fuel fuel (.inl child)
    | .inl (.alternation cs) => supports_fuel fuel (.inr cs)
    | .inl (.concatenation cs) => supports_fuel fuel (.inr cs)
    | .inr [] => some false
    | .inr (c :: rest) =>
      match supports_fuel fuel (.inl c) with
      | some true => some true
      | some false => supports_fuel fuel (.inr rest)
      | none => none

/-- The parent context of the node handed to `compute_match`:
`root` ↔ `parsed_pattern.parent` is `None`; `grouped` ↔ the parent is a
`Group`; `plain` ↔ the parent exists and is not a `Group`. -/
inductive Ctx where
  | root
  | grouped
  | plain
deriving DecidableEq, Repr

/-- The bookkeeping block at the end of `Matcher::compute_match`: on a
successful match of a backtrackable (`sb` = `supports_backtracking` of the
node), non-root, non-directly-grouped expression, update or insert its
`ExpressionBacktrackInfo` entry (keyed and ordered by
`pattern_index_sequence`). -/
def recordBacktrack (sb : Bool) (ctx : Ctx) (m? : Option RMatch)
    (st : MState) : MState :=
  match m? with
  | none => st
  | some m =>
    if sb ∧ ctx = Ctx.plain then
      match tableSearch st.backtrack_table st.pattern_index_sequence with
      | .found i =>
        let entry : ExpressionBacktrackInfo :=
          { index_sequence := (st.backtrack_table.getD i dummyEntry).index_sequence,
            last_match_start := m.start,
            last_match_end := m.stop,
            backtracked_to_last_match_start := decide (m.start = m.stop) }
        { st with backtrack_table := st.backtrack_table.set i entry }
      | .notFound ins =>
        let entry : ExpressionBacktrackInfo :=
          { index_sequence := st.pattern_index_sequence,
            last_match_start := m.start,
            last_match_end := m.stop,
            backtracked_to_last_match_start := decide (m.start = m.stop) }
        { st with backtrack_table := insertAt ins entry st.backtrack_table }
    else st

/-- `Matcher::empty_expression_match`: always succeeds with a zero-width
range at the (normalized) cursor. -/
def empty_expression_match (st : MState) : Option RMatch × MState :=
  (some { start := st.current, stop := st.current }, st)

/-- The greedy consumption loop of `character_expression_match` for `x*`/`x+`:
`while let Some(c) = target.get(pos) { if *c != value || pos >= bound { break } advance }`,
walking the suffix of the target starting at `pos` (structural recursion). -/
def charRunAux (value : Char) (bound : Nat) : List Char → Nat → Nat
  | [], pos => pos
  | c :: rest, pos =>
    if c ≠ value ∨ bound ≤ pos then pos
    else charRunAux value bound rest (pos + 1)

def charRun (target : List Char) (value : Char) (bound : Nat) (pos : Nat) : Nat :=
  charRunAux value bound (target.drop pos) pos

/-- `Matcher::character_expression_match`. -/
def character_expression_match (value : Option Char) (q : Quantifier)
    (st : MState) : Option RMatch × MState :=
  let old_match_bound := st.match_bound
  let newBound :=
    match tableSearch st.backtrack_table st.pattern_index_sequence with
    | .found i => (st.backtrack_table.getD i dummyEntry).last_match_end - 1
    | .notFound _ => old_match_bound
  let st := { st with match_bound := newBound }
  let (m?, st) :=
    match q with
    | .none | .zeroOrOne =>
      if st.has_next &&
          (match value with
           | Option.none => true
           | some v => st.target.getD st.pos ' ' == v) then
        let s := st.current
        let st := st.advance
        ((some (RMatch.mk s st.current) : Option RMatch), st)
      else if q = Quantifier.none then
        ((none : Option RMatch), st)
      else
        empty_expression_match st
    | _ =>
      let s := st.current
      let st :=
        match value with
        | Option.none => st.set_position (st.match_bound - 1)
        | some v => st.set_position (charRun st.target v st.match_bound st.pos)
      let e := st.current
      if s < e then
        ((some (RMatch.mk s e) : Option RMatch), st)
      else if q = Quantifier.zeroOrMore then
        empty_expression_match st
      else
        ((none : Option RMatch), st)
  (m?, { st with match_bound := old_match_bound })

/-- The "first preceeding sibling which can backtrack and has not backtracked
to its last successful match start" scan of `concatenation_match`
(`children[0..child_index].iter().enumerate().filter(..).next_back()`).
Returns the sibling's child index and its stored backtrack-table index. -/
def findPrev (table : List ExpressionBacktrackInfo)
    (children : List (Regexp × Option Nat)) (child_index : Nat) : Option (Nat × Nat) :=
  ((List.range child_index).reverse).findSome? fun j =>
    match (children.getD j (Regexp.empty, none)).2 with
    | some t =>
      if (table.getD t dummyEntry).backtracked_to_last_match_start then none
      else some (j, t)
    | none => none

/-- A pending call of the matching engine: the five recursive procedures of
`impl Matcher` and their three internal loops, merged into one type so the
whole engine is a single fuel-structural function the kernel can evaluate
(Lean compiles mutual recursion by well-founded recursion, which does not
reduce).  Constructor ↔ source:
`compute` ↔ `compute_match`; `group` ↔ `group_match`;
`groupStar` ↔ the `while let` loop of `group_match` for `(E)*`/`(E)+`
(carrying the saved bound, `start`, accumulated `end` and
`matched_empty_string`); `alternation` ↔ `alternation_match`;
`alternationLoop` ↔ its `for child in children` loop; `concatenation` ↔
`concatenation_match`; `concatLoop` ↔ its `while child_index <
children.len()` loop. -/
inductive Call where
  | compute (e : Regexp) (ctx : Ctx)
  | group (q : Quantifier) (child : Regexp)
  | groupStar (q : Quantifier) (child : Regexp) (old_match_bound : Nat)
      (start endv : Nat) (matched_empty_string : Bool)
  | alternation (cs : List Regexp)
  | alternationLoop (cs : List Regexp) (old_position : Nat)
  | concatenation (cs : List Regexp)
  | concatLoop (children : List (Regexp × Option Nat))
      (child_index match_region_end old_position : Nat)
deriving Repr

/-- The code after the `while let` loop of `group_match` for `(E)*`/`(E)+`:
total failure degrades `(E)*` to an empty match and fails `(E)+`; then the
match bound is restored and the tree path popped. -/
def groupStarExit (q : Quantifier) (old_match_bound start endv : Nat)
    (matched_empty_string : Bool) (st : MState) : Option (Option RMatch × MState) :=
  let (m?, st1) :=
    if start = endv ∧ matched_empty_string = false then
      if q = Quantifier.oneOrMore then ((none : Option RMatch), st)
      else empty_expression_match st
    else ((some (RMatch.mk start endv) : Option RMatch), st)
  some (m?, ({ st1 with match_bound := old_match_bound }).bubble_up)

/-- The matching engine: one step interpreter for `Call`.  First argument is
fuel; result `none` means the Rust code did not finish within it (every
terminating Rust execution is the value for all sufficiently large fuel). -/
def run : Nat → Call → MState → Option (Option RMatch × MState)
  | 0, _, _ => none
  | fuel + 1, c, st =>
    match c with
    | .compute e ctx =>
      -- `Matcher::compute_match`: dispatch on the node type, then record
      -- backtrack info for successful backtrackable non-root non-grouped nodes.
      let r : Option (Option RMatch × MState) :=
        match e with
        | .empty => some (empty_expression_match st)
        | .char v q => some (character_expression_match v q st)
        | .group q child => run fuel (.group q child) st
        | .alternation cs => run fuel (.alternation cs) st
        | .concatenation cs => run fuel (.concatenation cs) st
      match r with
      | none => none
      | some (m?, st1) =>
        match supports_fuel fuel (Sum.inl e) with
        | none => none
        | some sb => some (m?, recordBacktrack sb ctx m? st1)
    | .group q child =>
      -- `Matcher::group_match`: bound from this group's table entry, then
      -- dive into the child and apply the quantifier.
      let old_match_bound := st.match_bound
      let newBound :=
        match tableSearch st.backtrack_table st.pattern_index_sequence with
        | .found i => (st.backtrack_table.getD i dummyEntry).last_match_end - 1
        | .notFound _ => old_match_bound
      let st := { st with match_bound := newBound }
      let st := st.dive
      match q with
      | .none =>
        match run fuel (.compute child .grouped) st with
        | none => none
        | some (m?, st1) =>
          some (m?, ({ st1 with match_bound := old_match_bound }).bubble_up)
      | .zeroOrOne =>
        match run fuel (.compute child .grouped) st with
        | none => none
        | some (some m, st1) =>
          let r := if st1.match_bound ≤ m.stop then (none : Option RMatch) else some m
          some (r, ({ st1 with match_bound := old_match_bound }).bubble_up)
        | some (none, st1) =>
          let (m?, st2) := empty_expression_match st1
          some (m?, ({ st2 with match_bound := old_match_bound }).bubble_up)
      | _ =>
        run fuel (.groupStar q child old_match_bound st.current st.current false) st
    | .groupStar q child old_match_bound start endv matched_empty_string =>
      -- `while let Some(new_match) = self.compute_match()`: keep matching the
      -- inner expression unless the bound is exceeded (roll back to the last
      -- accepted end) or it has already matched the empty string once.
      match run fuel (.compute child .grouped) st with
      | none => none
      | some (none, st1) =>
        groupStarExit q old_match_bound start endv matched_empty_string st1
      | some (some m, st1) =>
        if st1.match_bound < st1.pos then
          groupStarExit q old_match_bound start endv matched_empty_string
            (st1.set_position endv)
        else if m.isEmpty && matched_empty_string then
          groupStarExit q old_match_bound start endv matched_empty_string st1
        else
          run fuel (.groupStar q child old_match_bound start m.stop m.isEmpty) st1
    | .alternation cs =>
      -- `Matcher::alternation_match`.
      let st := st.dive
      run fuel (.alternationLoop cs st.current) st
    | .alternationLoop cs old_position =>
      -- try children left to right from the same start cursor, restoring the
      -- cursor after each failure; bubble up when done.
      match cs with
      | [] => some ((none : Option RMatch), st.bubble_up)
      | c0 :: rest =>
        match run fuel (.compute c0 .plain) st with
        | none => none
        | some (none, st1) =>
          run fuel (.alternationLoop rest old_position)
            ((st1.set_position old_position).appoint_next_child)
        | some (some m, st1) => some (some m, st1.bubble_up)
    | .concatenation cs =>
      -- `Matcher::concatenation_match`.
      let st := st.dive
      run fuel
        (.concatLoop (cs.map (fun c0 => (c0, (none : Option Nat)))) 0 st.current
          st.current) st
    | .concatLoop children child_index match_region_end old_position =>
      -- chain children; on failure rewind to the nearest preceding
      -- backtrackable sibling (resetting exhausted entries of re-entered
      -- children).
      if children.length ≤ child_index then
        some (some (RMatch.mk old_position match_region_end), st.bubble_up)
      else
        let cpair := children.getD child_index (Regexp.empty, none)
        let child := cpair.1
        let table_info_pos := cpair.2
        let prev := findPrev st.backtrack_table children child_index
        let st :=
          match table_info_pos with
          | some t =>
            if prev.isSome &&
                (st.backtrack_table.getD t dummyEntry).backtracked_to_last_match_start then
              let cur := st.current
              let oldE := st.backtrack_table.getD t dummyEntry
              let newE : ExpressionBacktrackInfo :=
                { oldE with last_match_start := cur,
                            last_match_end := st.target.length,
                            backtracked_to_last_match_start := false }
              { st with backtrack_table := st.backtrack_table.set t newE }
            else st
          | none => st
        match run fuel (.compute child .plain) st with
        | none => none
        | some (some m, st1) =>
          match supports_fuel fuel (Sum.inl child) with
          | none => none
          | some sb =>
            let children1 :=
              if table_info_pos.isNone && sb then
                match tableSearch st1.backtrack_table st1.pattern_index_sequence with
                | .found t => children.set child_index (child, some t)
                | .notFound _ => children.set child_index (child, some 0)
                -- Rust `.unwrap()`s the search: `compute_match` has just
                -- recorded the entry for this backtrackable concatenation
                -- child, so the search always succeeds and the notFound arm
                -- is unreachable.
              else children
            run fuel (.concatLoop children1 (child_index + 1) m.stop old_position)
              st1.appoint_next_child
        | some (none, st1) =>
          match prev with
          | some (j, t) =>
            let entry := st1.backtrack_table.getD t dummyEntry
            let st2 := st1.set_position entry.last_match_start
            let st2 :=
              { st2 with pattern_index_sequence := setLast j st2.pattern_index_sequence }
            run fuel (.concatLoop children j match_region_end old_position) st2
          | none =>
            some ((none : Option RMatch), (st1.set_position old_position).bubble_up)

/-- `Matcher::compute_match` (entry point into `run`). -/
def compute_match (fuel : Nat) (e : Regexp) (ctx : Ctx) (st : MState) :
    Option (Option RMatch × MState) :=
  run fuel (.compute e ctx) st

/-- `Matcher::seek`: rewind the cursor, return to `Normal` phase, clear the
tree-path tracker and the backtrack table (the match cache is kept). -/
def MState.seek (st : MState) (position : Nat) : MState :=
  { st with pos := position,
            next_match_phase := .Normal,
            pattern_index_sequence := [],
            backtrack_table := [] }

/-- `Matcher::reset`: `self.seek(0)`. -/
def MState.reset (st : MState) : MState := st.seek 0

/-- The state built by `Matcher::new` for a given (already parsed) pattern
tree and target (the pattern tree itself is passed separately everywhere). -/
def initState (target : List Char) : MState :=
  { target := target,
    pos := 0,
    next_match_phase := .Normal,
    pattern_index_sequence := [],
    backtrack_table := [],
    match_bound := target.length + 1,
    match_cache := [],
    matches_substring_start := none,
    matches_substring_end := 0 }

/-- The phase recomputation at the end of the fresh-computation path of
`Iterator::next`: `match self.pos.cmp(&len) { Less => Normal, _ => match
phase { Normal => TrailingEmptyString, _ => Finished } }`. -/
def recomputePhase (st : MState) : MState :=
  { st with next_match_phase :=
      if st.pos < st.target.length then .Normal
      else
        match st.next_match_phase with
        | .Normal => .TrailingEmptyString
        | _ => .Finished }

/-- The `loop` of `Iterator::next`: attempt a full-tree match at each cursor
position (clearing per-attempt backtrack records), advancing one character
after each failed attempt. -/
def next_loop : Nat → Regexp → MState → Option (Option RMatch × MState)
  | 0, _, _ => none
  | fuel + 1, e, st =>
    match compute_match fuel e .root st with
    | none => none
    | some (m?, st1) =>
      let st1 := { st1 with backtrack_table := [] }
      match m? with
      | none =>
        if st1.has_next then next_loop fuel e st1.advance
        else some ((none : Option RMatch), st1)
      | some m =>
        let st2 := if m.isEmpty then st1.advance else st1
        let insPos := partitionPoint (fun m2 => decide (m2.start < m.start)) st2.match_cache
        let newCache := insertAt insPos m st2.match_cache
        let st3 := { st2 with match_cache := newCache }
        let newStart :=
          match st3.matches_substring_start with
          | none => some m.start
          | some s => some s
        let st4 :=
          { st3 with matches_substring_start := newStart,
                     matches_substring_end := m.stop }
        some (some m, st4)

/-- `<Matcher as Iterator>::next`: serve from the match cache when a cached
match at or after the cursor exists, otherwise scan forward computing fresh
matches; update the phase state machine. -/
def Matcher.next (fuel : Nat) (e : Regexp) (st : MState) :
    Option (Option RMatch × MState) :=
  if st.next_match_phase = .Finished then some ((none : Option RMatch), st)
  else
    match st.match_cache.find? (fun m => decide (st.pos ≤ m.start)) with
    | some cached =>
      let accept :=
        match st.next_match_phase with
        | .Normal => true
        | .TrailingEmptyString => cached.isEmpty
        | .Finished => false
      if accept then
        let old_pos := st.pos
        let st := { st with pos := cached.stop }
        let st :=
          { st with next_match_phase :=
              if st.pos < st.target.length then .Normal
              else if old_pos < st.target.length then .TrailingEmptyString
              else .Finished }
        some (some cached, st)
      else
        some ((none : Option RMatch), { st with next_match_phase := .Finished })
    | none =>
      let st := st.dive
      match next_loop fuel e st with
      | none => none
      | some (m?, st1) => some (m?, (recomputePhase st1).bubble_up)

/-- Run `Matcher::next` repeatedly (at most `steps` times), collecting the
matches produced until the first `None`.  The outer `Option` is fuel for the
embedded Rust loops. -/
def collectMatches (fuel : Nat) (e : Regexp) (st : MState) :
    Nat → Option (List RMatch × MState)
  | 0 => some ([], st)
  | steps + 1 =>
    match Matcher.next fuel e st with
    | none => none
    | some (none, st1) => some ([], st1)
    | some (some m, st1) =>
      match collectMatches fuel e st1 steps with
      | none => none
      | some (ms, st2) => some (m :: ms, st2)

/-- `Matcher::is_matching`. -/
def is_matching (fuel : Nat) (e : Regexp) (st : MState) : Option (Bool × MState) :=
  match Matcher.next fuel e st with
  | none => none
  | some (some _, st1) => some (true, st1)
  | some (none, st1) =>
    let st1 := st1.reset
    match Matcher.next fuel e st1 with
    | none => none
    | some (m?, st2) => some (m?.isSome, st2)

/-- `Matcher::fullmatch`: reset, then test whether the first match spans the
whole target. -/
def fullmatch (fuel : Nat) (e : Regexp) (st : MState) : Option (Bool × MState) :=
  let st := st.reset
  match Matcher.next fuel e st with
  | none => none
  | some (some m, st1) =>
    some (decide (m.start = 0 ∧ m.stop = st1.target.length), st1)
  | some (none, st1) => some (false, st1)

-- `const METACHARACTERS: [char; 7]`
def METACHARACTERS : List Char := ['(', ')', '\\', '|', '*', '.', '?']

/-- `pub fn escape`: for each metacharacter of the pattern push two `'\\'`
characters before it; other characters are copied unchanged. -/
def escape (pattern : List Char) : List Char :=
  match pattern with
  | [] => []
  | ch :: rest =>
    (if METACHARACTERS.contains ch then ['\\', '\\', ch] else [ch]) ++ escape rest

/-! ### Byte-indexed string slicing

`splitn` and `subn` build `target` as a Rust `String` and slice it with the
match offsets (`target[split_start..m.start]`), which index *bytes* while the
match offsets count *chars* (the matcher works on `Vec<char>`).  We model a
Rust string as the list of its chars and byte-index slicing through
`Char.utf8Size`; a slice whose index is out of range or not a char boundary
makes Rust panic, modelled by `none`. -/

/-- Take the prefix of a char list occupying exactly `b` bytes of its UTF-8
encoding; `none` when `b` overruns the string or falls inside a character
(where Rust string slicing panics). -/
def takeBytes : List Char → Nat → Option (List Char)
  | _, 0 => some []
  | [], _ + 1 => none
  | c :: rest, b + 1 =>
    if c.utf8Size ≤ b + 1 then
      match takeBytes rest (b + 1 - c.utf8Size) with
      | some l => some (c :: l)
      | none => none
    else none

/-- Drop the prefix of a char list occupying exactly `a` bytes; `none` when
`a` is not a char boundary. -/
def dropBytes : List Char → Nat → Option (List Char)
  | l, 0 => some l
  | [], _ + 1 => none
  | c :: rest, b + 1 =>
    if c.utf8Size ≤ b + 1 then dropBytes rest (b + 1 - c.utf8Size)
    else none

/-- Rust `&s[a..b]` on a `String`: panics (`none`) unless `a ≤ b` and both
are char boundaries within the string. -/
def sliceBytes (l : List Char) (a b : Nat) : Option (List Char) :=
  if b < a then none
  else
    match takeBytes l b with
    | some t => dropBytes t a
    | none => none

/-- Total UTF-8 byte length of a char list (Rust `String::len`). -/
def byteLen (l : List Char) : Nat := (l.map Char.utf8Size).sum

/-- Outcome of a derived text operation: a value, or a Rust panic. -/
inductive OpResult (α : Type) where
  | ok (val : α)
  | panicked
deriving DecidableEq, Repr

/-- The `for m in self.by_ref()` loop of `Matcher::splitn` (which iterates
the whole match sequence, collecting segments only while fewer than
`splits_count` have been collected). -/
def splitn_loop (fuel : Nat) (e : Regexp) (target : List Char) (splits_count : Nat) :
    Nat → MState → List (List Char) → Nat → Option (OpResult (List (List Char) × MState))
  | 0, _, _, _ => none
  | steps + 1, st, splits, split_start =>
    match Matcher.next fuel e st with
    | none => none
    | some (none, st1) =>
      match sliceBytes target split_start (byteLen target) with
      | some last => some (.ok (splits ++ [last], st1))
      | none => some .panicked
    | some (some m, st1) =>
      if splits.length < splits_count then
        match sliceBytes target split_start m.start with
        | some seg =>
          splitn_loop fuel e target splits_count steps st1 (splits ++ [seg]) m.stop
        | none => some .panicked
      else
        splitn_loop fuel e target splits_count steps st1 splits split_start

/-- `Matcher::splitn`. -/
def splitn (fuel : Nat) (e : Regexp) (st : MState) (splits_count : Nat) :
    Option (OpResult (List (List Char) × MState)) :=
  if splits_count = 0 then some (.ok ([], st))
  else
    let st := st.reset
    splitn_loop fuel e st.target splits_count fuel st [] 0

/-- `Matcher::split`: `self.splitn(self.target.len() + 1)`. -/
def split (fuel : Nat) (e : Regexp) (st : MState) :
    Option (OpResult (List (List Char) × MState)) :=
  splitn fuel e st (st.target.length + 1)

/-- The `for m in self.by_ref()` loop of `Matcher::subn` (which breaks once
`subs_count` substitutions have been made; note `subn` does **not** reset). -/
def subn_loop (fuel : Nat) (e : Regexp) (target : List Char) (repl : List Char) :
    Nat → MState → List Char → Nat → Nat → Option (OpResult (List Char × MState))
  | 0, _, _, _, _ => none
  | steps + 1, st, result, split_start, subs_count =>
    match Matcher.next fuel e st with
    | none => none
    | some (none, st1) =>
      match sliceBytes target split_start (byteLen target) with
      | some tail => some (.ok (result ++ tail, st1))
      | none => some .panicked
    | some (some m, st1) =>
      if 0 < subs_count then
        match sliceBytes target split_start m.start with
        | some seg =>
          subn_loop fuel e target repl steps st1 (result ++ seg ++ repl) m.stop
            (subs_count - 1)
        | none => some .panicked
      else
        match sliceBytes target split_start (byteLen target) with
        | some tail => some (.ok (result ++ tail, st1))
        | none => some .panicked

/-- `Matcher::subn`. -/
def subn (fuel : Nat) (e : Regexp) (st : MState) (repl : List Char)
    (subs_count : Nat) : Option (OpResult (List Char × MState)) :=
  if subs_count = 0 then some (.ok (st.target, st))
  else subn_loop fuel e st.target repl fuel st [] 0 subs_count

/-- `Matcher::sub`: `self.subn(repl, self.target.len() + 1)`. -/
def sub (fuel : Nat) (e : Regexp) (st : MState) (repl : List Char) :
    Option (OpResult (List Char × MState)) :=
  subn fuel e st repl (st.target.length + 1)

/-! ### The tokenizer (`src/scanner/mod.rs`)

`Scanner` is an iterator over tokens.  On un-balanced parentheses it prints a
caret-aligned diagnostic with `eprintln!` and then calls `panic!()`, which
aborts the process; this is modelled by the `panicked` outcome carrying the
caret indicator line. -/

/-- The token names used by `Scanner::next` (`use tokens::TokenName::*`). -/
inductive TokenName where
  | EmptyString
  | Character (value : Char)
  | LeftParen
  | RightParen
  | Pipe
  | Mark
  | Star
  | Plus
  | Dot
  | EscapedSlash
  | EscapedLeftParen
  | EscapedRightParen
  | EscapedPipe
  | EscapedMark
  | EscapedStar
  | EscapedPlus
  | EscapedDot
deriving DecidableEq, Repr

structure Token where
  name : TokenName
  position : Nat
deriving DecidableEq, Repr

/-- `struct Scanner` (the `groupings` stack keeps only the positions: the
tag is always `GroupParentheses`). -/
structure Scanner where
  source : List Char
  current : Nat
  found_empty_string : Bool
  groupings : List Nat
deriving DecidableEq, Repr

/-- `Scanner::new`. -/
def Scanner.mk0 (source : List Char) : Scanner :=
  { source := source, current := 0, found_empty_string := false, groupings := [] }

/-- `Scanner::get`: character at `index + offset`, or `'\0'` when that
position does not exist. -/
def Scanner.get (sc : Scanner) (index : Nat) (offset : Int) : Char :=
  if offset < 0 then
    let o := offset.natAbs
    if index < o then '\x00'
    else sc.source.getD (index - o) '\x00'
  else sc.source.getD (index + offset.natAbs) '\x00'

/-- One step of `<Scanner as Iterator>::next`. -/
inductive ScanOutcome where
  | tok (t : Token) (st : Scanner)
  | finished (st : Scanner)
  | panicked (diagnostic : List Char)
deriving DecidableEq, Repr

/-- The caret-indicator line built for un-balanced `(` marks: spaces up to
each mark position, then `'^'`. -/
def indicatorFor (positions : List Nat) : List Char :=
  positions.foldl (fun acc p => acc ++ List.replicate (p - acc.length) ' ' ++ ['^']) []

/-- `<Scanner as Iterator>::next`. -/
def Scanner.next (sc : Scanner) : ScanOutcome :=
  let peek := sc.get sc.current 0
  let prev := sc.get sc.current (-1)
  let is_prev_escaped := sc.get sc.current (-2) == '\\'
  let emptyCase :=
    !is_prev_escaped && !sc.found_empty_string &&
      ((sc.source.isEmpty || (sc.source.length == 1 && peek == '|'))
        || (prev == '(' && (peek == '|' || peek == ')'))
        || ((prev == '|' && (peek == ')' || peek == '|'))
            || (peek == '|' && sc.current + 1 == sc.source.length)))
  if emptyCase then
    .tok ⟨.EmptyString, sc.current⟩ { sc with found_empty_string := true }
  else
    let sc := { sc with found_empty_string := false }
    if ¬ sc.current < sc.source.length then
      if sc.groupings ≠ [] then .panicked (indicatorFor sc.groupings)
      else .finished sc
    else if peek == ')' && sc.groupings.isEmpty then
      .panicked (List.replicate sc.current ' ' ++ ['^'])
    else
      let (name, sc1) :=
        if peek = '(' then
          (TokenName.LeftParen, { sc with groupings := sc.groupings ++ [sc.current] })
        else if peek = ')' then
          (TokenName.RightParen, { sc with groupings := sc.groupings.dropLast })
        else if peek = '|' then (TokenName.Pipe, sc)
        else if peek = '?' then (TokenName.Mark, sc)
        else if peek = '*' then (TokenName.Star, sc)
        else if peek = '+' then (TokenName.Plus, sc)
        else if peek = '.' then (TokenName.Dot, sc)
        else if peek = '\\' then
          let nc := sc.get sc.current 1
          let esc : Option TokenName :=
            if nc = '\\' then some .EscapedSlash
            else if nc = '(' then some .EscapedLeftParen
            else if nc = ')' then some .EscapedRightParen
            else if nc = '|' then some .EscapedPipe
            else if nc = '?' then some .EscapedMark
            else if nc = '*' then some .EscapedStar
            else if nc = '+' then some .EscapedPlus
            else if nc = '.' then some .EscapedDot
            else none
          match esc with
          | some n =>
            (n, if sc.current < sc.source.length then { sc with current := sc.current + 1 } else sc)
          | none => (TokenName.Character '\\', sc)
        else (TokenName.Character peek, sc)
      .tok ⟨name, sc.current⟩ { sc1 with current := sc1.current + 1 }

/-- Run the scanner to exhaustion (fuel-indexed), collecting tokens.  A
`panicked` outcome aborts the whole scan, as `panic!` does. -/
inductive ScanResult where
  | toks (l : List Token)
  | panicked (diagnostic : List Char)
deriving DecidableEq, Repr

def scanAll : Nat → Scanner → Option ScanResult
  | 0, _ => none
  | fuel + 1, sc =>
    match sc.next with
    | .tok t sc1 =>
      match scanAll fuel sc1 with
      | some (.toks l) => some (.toks (t :: l))
      | some (.panicked d) => some (.panicked d)
      | none => none
    | .finished _ => some (.toks [])
    | .panicked d => some (.panicked d)

/-! ## Concrete pattern trees used by the claims

The tree builder (`crate::parser`) is external to the sources, so the trees
of concrete pattern strings are modelled from the spec's grammar: postfix
quantifiers bind to the preceding atom, concatenation binds tighter than
alternation, `(...)` groups. -/

/-- Modelled from the spec: the parse of the pattern string `a*a`. -/
def pattern_a_star_a : Regexp :=
  .concatenation [.char (some 'a') .zeroOrMore, .char (some 'a') .none]

/-- Modelled from the spec: the parse of the pattern string `b(a?.*)*`. -/
def pattern_b_group_star : Regexp :=
  .concatenation
    [.char (some 'b') .none,
     .group .zeroOrMore
       (.concatenation [.char (some 'a') .zeroOrOne, .char none .zeroOrMore])]

/-- Modelled from the spec: the parse of the pattern string `(a)?`. -/
def pattern_group_a_opt : Regexp := .group .zeroOrOne (.char (some 'a') .none)

/-- Modelled from the spec: the parse of the pattern string `a?b`. -/
def pattern_a_opt_b : Regexp :=
  .concatenation [.char (some 'a') .zeroOrOne, .char (some 'b') .none]

/-- Modelled from the spec: the parse of the pattern string `b`. -/
def pattern_b : Regexp := .char (some 'b') .none

/-- Modelled from the spec: the parse of the pattern string `a`. -/
def pattern_a : Regexp := .char (some 'a') .none

/-- Project a `subn` outcome to just the produced string (`none` = panic). -/
def subnString (r : Option (OpResult (List Char × MState))) : Option (Option (List Char)) :=
  r.map (fun o => match o with | .ok (s, _) => some s | .panicked => none)

/-- Project a `splitn` outcome to just the produced segments (`none` = panic). -/
def splitnSegs (r : Option (OpResult (List (List Char) × MState))) :
    Option (Option (List (List Char))) :=
  r.map (fun o => match o with | .ok (s, _) => some s | .panicked => none)

/-! ## Claim C1 -/

/-- C1: for the pattern `a*a` and the target `"aaa"`, `fullmatch` returns
`true` and the first match produced from cursor 0 is exactly `[0,3)`; the
greedy `a*` alone over-consumes the whole target (`[0,3)`), so the final
span is reached through concatenation backtracking forcing `a*` onto a
smaller range. -/
theorem C1_a_star_a_backtracking :
    (fullmatch 50 pattern_a_star_a (initState ['a', 'a', 'a'])).map Prod.fst =
        some true ∧
      (Matcher.next 50 pattern_a_star_a (initState ['a', 'a', 'a'])).map Prod.fst =
        some (some (RMatch.mk 0 3)) ∧
      (compute_match 20 (.char (some 'a') .zeroOrMore) .root
          (initState ['a', 'a', 'a'])).map Prod.fst = some (some (RMatch.mk 0 3)) := by
  refine ⟨by decide, by decide, by decide⟩

/-! ## Claim C2 -/

/-- C2 (refuting the claim on the code): on pattern `b(a?.*)*` and target
`"b"`, the first two `next()` calls of one fresh `Matcher` (no seek/reset in
between) both return the nonempty match `[0,1)`, so consecutive matches
`m₁, m₂` have `m₁.end = 1 > 0 = m₂.start`, contradicting
`m_i.end ≤ m_{i+1}.start`.  (The `.*` match-bound clamp inside the starred
group moves the cursor backward, the root match leaves the cursor at 0 while
reporting end 1, and the match cache then re-serves the same match.) -/
theorem C2_nonoverlap_code_bug :
    (collectMatches 64 pattern_b_group_star (initState ['b']) 2).map Prod.fst =
        some [RMatch.mk 0 1, RMatch.mk 0 1] ∧
      ¬ (RMatch.mk 0 1).stop ≤ (RMatch.mk 0 1).start := by
  refine ⟨by decide, by decide⟩

/-! ## Claim C3 -/

/-- The matcher state in which the group `(a)?` (tree path `[0,0]`, i.e.
first child of the root concatenation of `(a)?a`) is re-attempted at cursor
0 against target `"a"` after its first success `[0,1)` was recorded in the
backtrack table: this is the state `concatenation_match` produces when the
trailing `a` of `(a)?a` fails and backtracking rewinds to the group. -/
def c3_state : MState :=
  { target := ['a'],
    pos := 0,
    next_match_phase := .Normal,
    pattern_index_sequence := [0, 0],
    backtrack_table :=
      [{ index_sequence := [0, 0], last_match_start := 0, last_match_end := 1,
         backtracked_to_last_match_start := false }],
    match_bound := 2,
    match_cache := [],
    matches_substring_start := none,
    matches_substring_end := 0 }

/-- C3 (refuting the claim on the code): the re-attempt of the group `(a)?`
at cursor 0 under match bound 0 (from its recorded previous end 1) fails —
the inner `a` matches `[0,1)` and the group discards it for reaching the
bound — but the cursor is left at 1, not restored to the 0 it started at.
The code's own comment says "ALL EXPRESSIONS MUST RESTORE OLD POSITION WHEN
FAILING TO MATCH". -/
theorem C3_failed_group_attempt_moves_cursor :
    (compute_match 20 pattern_group_a_opt .plain c3_state).map
        (fun p => (p.1, p.2.pos)) = some (none, 1) ∧
      c3_state.pos = 0 := by
  refine ⟨by decide, by decide⟩

/-! ## Claim C4

`next()` on the syntactically valid pattern `a?b` and target `"a"` never
terminates: `a?` matches `[0,1)`, `b` fails at 1, concatenation backtracking
rewinds to `a?` with match bound 0 — but the `None`/`ZeroOrOne` arm of
`character_expression_match` never consults the match bound, so `a?` matches
`[0,1)` again (leaving its backtrack entry unchanged), `b` fails again, and
the loop repeats with an identical state.  The lemmas below pin the cycle:
the concatenation loop state after re-attempting `a?` returns to itself
after two iterations (which consume two units of fuel), so the interpreter
returns fuel-exhaustion (`none`) for every fuel. -/

/-- The backtrack-table entry of `a?` (tree path `[0,0]`) after its match
`[0,1)`. -/
def c4_entry : ExpressionBacktrackInfo :=
  { index_sequence := [0, 0], last_match_start := 0, last_match_end := 1,
    backtracked_to_last_match_start := false }

/-- The concatenation children of `a?b` before any child matched. -/
def c4_children0 : List (Regexp × Option Nat) :=
  [(.char (some 'a') .zeroOrOne, none), (.char (some 'b') .none, none)]

/-- The concatenation children of `a?b` after `a?` matched (its
backtrack-table index 0 is stored). -/
def c4_children : List (Regexp × Option Nat) :=
  [(.char (some 'a') .zeroOrOne, some 0), (.char (some 'b') .none, none)]

/-- The matcher state at the start of the concatenation loop of `a?b` over
`"a"` (the root and the concatenation have been dived into). -/
def c4_stInit : MState :=
  { target := ['a'], pos := 0, next_match_phase := .Normal,
    pattern_index_sequence := [0, 0], backtrack_table := [],
    match_bound := 2, match_cache := [], matches_substring_start := none,
    matches_substring_end := 0 }

/-- The matcher state with which `next()` evaluates the root of `a?b` over
`"a"` (cursor 0, root tree path). -/
def c4_st0d : MState :=
  { target := ['a'], pos := 0, next_match_phase := .Normal,
    pattern_index_sequence := [0], backtrack_table := [],
    match_bound := 2, match_cache := [], matches_substring_start := none,
    matches_substring_end := 0 }

/-- The recurring state of the concatenation loop of `a?b` over `"a"`: `a?`
has just re-matched `[0,1)` and the loop is about to attempt `b` at cursor
1. -/
def c4_stB : MState :=
  { target := ['a'], pos := 1, next_match_phase := .Normal,
    pattern_index_sequence := [0, 1], backtrack_table := [c4_entry],
    match_bound := 2, match_cache := [], matches_substring_start := none,
    matches_substring_end := 0 }

/-- Two iterations of the concatenation loop (`b` fails, backtrack to `a?`,
`a?` re-matches) return to the identical state, consuming two units of
fuel. -/
lemma c4_cycle (g : Nat) :
    run (g + 4) (.concatLoop c4_children 1 1 0) c4_stB =
      run (g + 2) (.concatLoop c4_children 1 1 0) c4_stB := rfl

/-- The concatenation loop of `a?b` over `"a"` exhausts every fuel from the
recurring state. -/
lemma c4_loop_none : ∀ f, run f (.concatLoop c4_children 1 1 0) c4_stB = none := by
  intro f
  induction f using Nat.strong_induction_on with
  | _ f ih =>
    match f with
    | 0 => rfl
    | 1 => decide
    | 2 => decide
    | 3 => decide
    | (g + 4) => rw [c4_cycle g]; exact ih (g + 2) (by omega)

/-- The first loop iteration (`a?` matches `[0,1)`) reaches the recurring
state. -/
lemma c4_enter (g : Nat) :
    run (g + 3) (.concatLoop c4_children0 0 0 0) c4_stInit =
      run (g + 2) (.concatLoop c4_children 1 1 0) c4_stB := rfl

lemma c4_init_none : ∀ f, run f (.concatLoop c4_children0 0 0 0) c4_stInit = none := by
  intro f
  match f with
  | 0 => rfl
  | 1 => decide
  | 2 => decide
  | (g + 3) => rw [c4_enter g]; exact c4_loop_none (g + 2)

lemma c4_concat_none : ∀ f,
    run f (.concatenation [.char (some 'a') .zeroOrOne, .char (some 'b') .none])
      c4_st0d = none := by
  intro f
  match f with
  | 0 => rfl
  | (g + 1) =>
    have h : run (g + 1)
        (.concatenation [.char (some 'a') .zeroOrOne, .char (some 'b') .none]) c4_st0d =
        run g (.concatLoop c4_children0 0 0 0) c4_stInit := rfl
    rw [h]
    exact c4_init_none g

lemma c4_compute_root_none : ∀ f,
    compute_match f pattern_a_opt_b .root c4_st0d = none := by
  intro f
  match f with
  | 0 => rfl
  | (g + 1) =>
    show run (g + 1) (.compute pattern_a_opt_b .root) c4_st0d = none
    rw [show pattern_a_opt_b =
      Regexp.concatenation [.char (some 'a') .zeroOrOne, .char (some 'b') .none] from rfl]
    rw [run.eq_6, c4_concat_none g]

lemma c4_next_loop_none : ∀ f, next_loop f pattern_a_opt_b c4_st0d = none := by
  intro f
  match f with
  | 0 => rfl
  | (g + 1) =>
    rw [show g + 1 = g.succ from rfl, next_loop.eq_2, c4_compute_root_none g]

/-- C4 (refuting the claim on the code): for the syntactically valid pattern
`a?b` and target `"a"`, `next()` does not terminate — the fuel-indexed
interpreter reports fuel-exhaustion for **every** fuel, because `x?` ignores
its match bound and concatenation backtracking re-attempts it forever, so
the match sequence never reaches the `Finished` state. -/
theorem C4_next_diverges_on_a_opt_b (fuel : Nat) :
    Matcher.next fuel pattern_a_opt_b (initState ['a']) = none := by
  have h : Matcher.next fuel pattern_a_opt_b (initState ['a']) =
      (match next_loop fuel pattern_a_opt_b c4_st0d with
       | none => none
       | some (m?, st1) => some (m?, (recomputePhase st1).bubble_up)) := rfl
  rw [h, c4_next_loop_none fuel]

/-! ## Claim C5

For a purely-empty pattern (the `Empty` node) over a target of length
`L ≥ 1`, the iterator produces exactly `L+1` zero-width matches at offsets
`0..L`; but for `L = 0` the match `[0,0)` is produced **twice**: after the
first match the cursor advances to 1 > L, yet the next fresh attempt
computes `current() = min(pos, len) = 0` again and succeeds once more
before the phase machine reaches `Finished`. -/

/-- The match cache of the purely-empty pattern after `k` produced matches:
`[0,0), [1,1), ..., [k-1,k-1)`. -/
def c5_cache (k : Nat) : List RMatch := (List.range k).map (fun i => RMatch.mk i i)

/-- The matcher state on the purely-empty pattern over `t` after `k`
produced matches (`0 ≤ k ≤ t.length + 1`). -/
def c5_state (t : List Char) (k : Nat) : MState :=
  { target := t, pos := k,
    next_match_phase :=
      if k < t.length then .Normal
      else if k = t.length then .TrailingEmptyString
      else .Finished,
    pattern_index_sequence := [],
    backtrack_table := [],
    match_bound := t.length + 1,
    match_cache := c5_cache k,
    matches_substring_start := if k = 0 then none else some 0,
    matches_substring_end := k - 1 }

lemma c5_state_zero : ∀ t : List Char, 1 ≤ t.length → c5_state t 0 = initState t
  | _ :: _, _ => by simp [c5_state, initState, c5_cache]

/-- No cached match starts at or after the cursor `k`, so the cache path of
`next()` is never taken in a fresh iteration. -/
lemma c5_find_none (k : Nat) :
    List.find? (fun m => decide (k ≤ m.start)) (c5_cache k) = none := by
  apply List.find?_eq_none.mpr
  intro m hm
  simp only [c5_cache, List.mem_map, List.mem_range] at hm
  obtain ⟨i, hi, rfl⟩ := hm
  simp
  omega

/-- `partition_point` on a list satisfying the predicate everywhere returns
the length (the binary search always moves right). -/
lemma ppAux_allTrue (pred : RMatch → Bool) (l : List RMatch)
    (h : ∀ x ∈ l, pred x = true) :
    ∀ steps left right, right ≤ l.length → left ≤ right → right - left ≤ steps →
      partitionPointAux pred l steps left right = right := by
  intro steps
  induction steps with
  | zero =>
    intro left right _ h2 h3
    simp only [partitionPointAux]
    omega
  | succ s ih =>
    intro left right h1 h2 h3
    simp only [partitionPointAux]
    by_cases hlr : left < right
    · simp only [if_pos hlr]
      have hmem : l.getD (left + (right - left) / 2) { start := 0, stop := 0 } ∈ l := by
        rw [List.getD_eq_getElem?_getD, List.getElem?_eq_getElem (by omega)]
        exact List.getElem_mem (by omega)
      rw [h _ hmem]
      simp only [if_pos rfl]
      exact ih (left + (right - left) / 2 + 1) right h1 (by omega) (by omega)
    · simp only [if_neg hlr]
      omega

lemma partitionPoint_allTrue (pred : RMatch → Bool) (l : List RMatch)
    (h : ∀ x ∈ l, pred x = true) : partitionPoint pred l = l.length :=
  ppAux_allTrue pred l h (l.length + 1) 0 l.length le_rfl (Nat.zero_le _) (by omega)

lemma insertAt_length (a : RMatch) (l : List RMatch) :
    insertAt l.length a l = l ++ [a] := by
  induction l with
  | nil => rfl
  | cons x xs ih => simp [insertAt, List.length_cons, ih]

/-- `compute_match` on the `Empty` node: a zero-width match at the
normalized cursor, no state change (`Empty` records no backtrack info). -/
lemma c5_compute_empty (g : Nat) (st : MState) :
    compute_match (g + 2) Regexp.empty .root st =
      some (some (RMatch.mk st.current st.current), st) := by
  show run ((g + 1) + 1) (.compute Regexp.empty .root) st = _
  rw [run.eq_2]
  rfl

/-- Inserting the new zero-width match `[k,k)` into the cache appends it. -/
lemma c5_cache_insert (k : Nat) :
    insertAt (partitionPoint (fun m2 => decide (m2.start < k)) (c5_cache k))
      (RMatch.mk k k) (c5_cache k) = c5_cache (k + 1) := by
  rw [partitionPoint_allTrue]
  · rw [insertAt_length]
    simp [c5_cache, List.range_succ]
  · intro x hx
    simp only [c5_cache, List.mem_map, List.mem_range] at hx
    obtain ⟨i, hi, rfl⟩ := hx
    simp
    omega

/-- One `next()` step of the purely-empty pattern from the state after `k`
matches (`k ≤ L`): produces `[k,k)` and reaches the state after `k+1`
matches. -/
lemma c5_step (t : List Char) (f k : Nat) (hk : k ≤ t.length) :
    Matcher.next (f + 3) Regexp.empty (c5_state t k) =
      some (some (RMatch.mk k k), c5_state t (k + 1)) := by
  have hph : ¬ (c5_state t k).next_match_phase = .Finished := by
    simp only [c5_state]
    split_ifs with h1 h2
    · simp
    · simp
    · exfalso; omega
  have hcur : ((c5_state t k).dive).current = k := by
    simp [MState.dive, MState.current, c5_state]
    omega
  have hcm : compute_match (f + 2) Regexp.empty .root ((c5_state t k).dive) =
      some (some (RMatch.mk k k), (c5_state t k).dive) := by
    rw [c5_compute_empty, hcur]
  simp only [Matcher.next, if_neg hph]
  rw [show (c5_state t k).pos = k from rfl,
    show (c5_state t k).match_cache = c5_cache k from rfl, c5_find_none]
  rw [show f + 3 = (f + 2).succ from rfl, next_loop.eq_2, hcm]
  simp only [RMatch.isEmpty]
  norm_num
  simp only [c5_state, MState.dive, MState.advance, MState.bubble_up, recomputePhase]
  rw [c5_cache_insert k]
  simp only [MState.mk.injEq, and_true, true_and]
  constructor
  · split_ifs <;> first | rfl | (exfalso; omega)
  · by_cases hk0 : k = 0 <;> simp [hk0]

/-- After `L+1` matches the phase is `Finished`: `next()` yields no match
and leaves the state unchanged. -/
lemma c5_finish (t : List Char) (f : Nat) :
    Matcher.next f Regexp.empty (c5_state t (t.length + 1)) =
      some (none, c5_state t (t.length + 1)) := by
  have hph : (c5_state t (t.length + 1)).next_match_phase = .Finished := by
    simp only [c5_state]
    split_ifs <;> first | (exfalso; omega) | rfl
  simp [Matcher.next, hph]

/-- Iterating the purely-empty pattern from the state after `k` matches
produces the matches `[k,k), ..., [L,L)` and ends `Finished`. -/
lemma c5_collect (t : List Char) (f : Nat) : ∀ n k, k + n = t.length + 1 →
    collectMatches (f + 3) Regexp.empty (c5_state t k) (n + 1) =
      some ((List.range' k n).map (fun i => RMatch.mk i i),
        c5_state t (t.length + 1)) := by
  intro n
  induction n with
  | zero =>
    intro k hk
    have hk1 : k = t.length + 1 := by omega
    subst hk1
    simp [collectMatches, c5_finish]
  | succ n ih =>
    intro k hk
    have hk' : k ≤ t.length := by omega
    rw [collectMatches.eq_2]
    rw [c5_step t f k hk']
    simp only [ih (k + 1) (by omega)]
    simp [List.range']

/-- C5 (counterexample): for the purely-empty pattern over the empty target
(`L = 0`), the iterator produces the zero-width match `[0,0)` **twice**,
not the exactly `L + 1 = 1` matches the claim states. -/
theorem C5_counterexample_empty_target :
    (collectMatches 20 Regexp.empty (initState ([] : List Char)) 3).map Prod.fst =
        some [RMatch.mk 0 0, RMatch.mk 0 0] ∧
      ([] : List Char).length + 1 = 1 := by
  refine ⟨by decide, rfl⟩

/-- C5 (amended): for a purely-empty pattern over a target of length
`L ≥ 1`, iterating a fresh Matcher produces exactly the `L+1` zero-width
matches at offsets `0, 1, ..., L` in order and then no further match (the
`L+2`-nd request yields nothing); for `L = 0` the match `[0,0)` is produced
twice (see the counterexample). -/
theorem C5_purely_empty_pattern_matches (t : List Char) (fuel : Nat)
    (hf : 3 ≤ fuel) (hL : 1 ≤ t.length) :
    (collectMatches fuel Regexp.empty (initState t) (t.length + 2)).map Prod.fst =
      some ((List.range (t.length + 1)).map (fun i => RMatch.mk i i)) := by
  obtain ⟨f, rfl⟩ : ∃ f, fuel = f + 3 := ⟨fuel - 3, by omega⟩
  rw [← c5_state_zero t hL]
  rw [show t.length + 2 = (t.length + 1) + 1 from rfl]
  rw [c5_collect t f (t.length + 1) 0 (by omega)]
  simp [List.range_eq_range']

/-- C5 witness: the amended claim at target `"a"`, fuel 3. -/
theorem C5_purely_empty_pattern_matches_witness :
    (collectMatches 3 Regexp.empty (initState ['a']) 3).map Prod.fst =
      some ((List.range 2).map (fun i => RMatch.mk i i)) :=
  C5_purely_empty_pattern_matches ['a'] 3 (by decide) (by decide)

/-! ## Claim C6 -/

/-- C6 (refuting the claim on the code): `escape` leaves `+` unchanged (`+`
is not in `METACHARACTERS`), and prepends **two** backslash characters — not
one grammar escape — to each metacharacter; consequently `escape("(")` is
the three-character string `\\(`, which the tokenizer reads as an escaped
backslash followed by an opening parenthesis and rejects as un-balanced
(printing a caret diagnostic and panicking), so `fullmatch(escape(s), s)`
cannot succeed for `s = "("`. -/
theorem C6_escape_code_bug :
    escape ['a', '+'] = ['a', '+'] ∧
      escape ['('] = ['\\', '\\', '('] ∧
      scanAll 20 (Scanner.mk0 (escape ['('])) = some (.panicked [' ', ' ', '^']) := by
  refine ⟨by decide, by decide, by decide⟩

/-! ## Claim C7 -/

/-- C7 (refuting the claim on the code): on pattern `b` and target `"éb"`
the matcher (which works on chars) finds the single match `[1,2)`, but
`split()` slices the target `String` at byte offsets taken from these char
indices: byte 1 falls inside the two-byte UTF-8 encoding of `'é'`, so
`split()` panics instead of returning segments — no interleaving can
reconstruct the target. -/
theorem C7_split_panics_on_multibyte :
    (collectMatches 64 pattern_b (initState ['é', 'b']) 3).map Prod.fst =
        some [RMatch.mk 1 2] ∧
      split 64 pattern_b (initState ['é', 'b']) = some .panicked := by
  refine ⟨by decide, by decide⟩

/-! ## Claim C8 -/

/-- The matcher state after one `next()` call on pattern `a`, target `"aa"`
(the first match `[0,1)` has been produced and cached, the cursor is at 1). -/
def c8_mid : MState :=
  { target := ['a', 'a'],
    pos := 1,
    next_match_phase := .Normal,
    pattern_index_sequence := [],
    backtrack_table := [],
    match_bound := 3,
    match_cache := [{ start := 0, stop := 1 }],
    matches_substring_start := some 0,
    matches_substring_end := 1 }

/-- C8 (refuting the claim on the code): `subn` does not restart the scan
from offset 0 — unlike `splitn`, it has no `reset()`.  After one `next()`
call on pattern `a`, target `"aa"` (state `c8_mid`), `subn("X", 2)` yields
`"aX"`, replacing only the match after the current cursor, while the
traversal restarted from 0 (`subn` from the initial state, or `splitn(2)`
from the same `c8_mid` state, which does reset) sees the matches at 0 and 1
and would give `"XX"` / segments `["", "", ""]`. -/
theorem C8_subn_does_not_restart :
    Matcher.next 20 pattern_a (initState ['a', 'a']) =
        some (some (RMatch.mk 0 1), c8_mid) ∧
      subnString (subn 64 pattern_a c8_mid ['X'] 2) = some (some ['a', 'X']) ∧
      subnString (subn 64 pattern_a (initState ['a', 'a']) ['X'] 2) =
        some (some ['X', 'X']) ∧
      splitnSegs (splitn 64 pattern_a c8_mid 2) = some (some [[], [], []]) := by
  refine ⟨by decide, by decide, by decide, by decide⟩

/-! ## Claim C9 -/

/-- C9 (counterexample): tokenizing the malformed pattern `)` does not
produce an error value — the scanner prints a caret diagnostic and calls
`panic!()`, aborting the process, contradicting "never aborts the process
(no panic)". -/
theorem C9_counterexample_panic_on_unbalanced :
    (Scanner.mk0 [')']).next = .panicked ['^'] := by decide

/-- C9 (amended): on un-balanced parentheses the tokenizer emits a
caret-aligned diagnostic and aborts via `panic!` instead of returning a
syntax-error value (`)` panics immediately; `(` panics at end of input); and
a dangling trailing escape is not an error at all — the trailing backslash
is tokenized as an ordinary backslash character. -/
theorem C9_scanner_error_behaviour :
    (Scanner.mk0 [')']).next = .panicked ['^'] ∧
      scanAll 20 (Scanner.mk0 ['(']) = some (.panicked ['^']) ∧
      scanAll 20 (Scanner.mk0 ['a', '\\']) =
        some (.toks [⟨.Character 'a', 0⟩, ⟨.Character '\\', 1⟩]) := by
  refine ⟨by decide, by decide, by decide⟩

/-! ## Claim C10 -/

/-- The matcher state after exhausting pattern `""` over target `"a"`:
both zero-width matches `[0,0)` and `[1,1)` are cached, phase `Finished`. -/
def c10_exhausted : MState :=
  { target := ['a'],
    pos := 2,
    next_match_phase := .Finished,
    pattern_index_sequence := [],
    backtrack_table := [],
    match_bound := 2,
    match_cache := [{ start := 0, stop := 0 }, { start := 1, stop := 1 }],
    matches_substring_start := some 0,
    matches_substring_end := 1 }

/-- The state reached by `next()` right after `reset()` on `c10_exhausted`:
the cached zero-width match `[0,0)` was served from the cache and the cursor
set to its end 0 — without the zero-width advance the fresh path performs. -/
def c10_stuck : MState :=
  { target := ['a'],
    pos := 0,
    next_match_phase := .Normal,
    pattern_index_sequence := [],
    backtrack_table := [],
    match_bound := 2,
    match_cache := [{ start := 0, stop := 0 }, { start := 1, stop := 1 }],
    matches_substring_start := some 0,
    matches_substring_end := 1 }

/-- C10 (refuting the claim on the code): a fresh `Matcher` on pattern `""`,
target `"a"` produces `[0,0)`, `[1,1)` and finishes; but after `reset()` the
cache path serves `[0,0)` and sets the cursor to its end 0 **without** the
zero-width advance, reaching the state `c10_stuck` which `next()` maps to
itself — so every further call returns `[0,0)` again, and the post-reset
sequence `[0,0), [0,0), ...` differs from the fresh sequence. -/
theorem C10_reset_cache_replays_zero_width :
    collectMatches 20 Regexp.empty (initState ['a']) 3 =
        some ([RMatch.mk 0 0, RMatch.mk 1 1], c10_exhausted) ∧
      Matcher.next 20 Regexp.empty c10_exhausted.reset =
        some (some (RMatch.mk 0 0), c10_stuck) ∧
      Matcher.next 20 Regexp.empty c10_stuck =
        some (some (RMatch.mk 0 0), c10_stuck) := by
  refine ⟨by decide, by decide, by decide⟩

end RustRegexps
